import Mathlib

/-!
Verification development for the mobx-mantle repository.

The repository is a thin adapter between class-based View/Behavior
definitions, a reactive-state library (mobx) and a rendering framework
(React).  Its logic lives in two modules:

* `src/unnamed/part_000` — the `View` base class, the reactive-annotation
  classifier `makeViewObservable` (with its `BASE_EXCLUDES` set and the
  `isRefLike` shape test), and the `createView` factory whose component body
  constructs the instance, annotates it, runs `onCreate`, checks for a
  missing render, and whose `useLayoutEffect`/`useEffect` callbacks drive
  the lifecycle phases.

* `src/unnamed/part_001` — two variants of the behavior module.
  Variant 1: `createBehavior` (a factory whose internal class constructor
  calls `onCreate(...args)` and then annotates) together with
  `layoutMountBehavior`/`mountBehavior`/`unmountBehavior` wrapped in
  try/catch that forwards to `reportError`.
  Variant 2: `createBehaviorInstance` (annotate, then `onCreate()`), and
  `layoutMountBehavior`/`mountBehavior`/`unmountBehavior` with no
  try/catch.  Variant 2 is the one imported by `part_000`'s `View`.

The embedding below models the lifecycle functions as trace-producing
functions over explicit entry states (JS exceptions become an `ok : Bool`
flag that aborts the enclosing sequence when false, matching uncaught
propagation), and the classifier as a pure function from an instance
snapshot and prototype chain to an ordered annotation list.
-/

/-- Shape of a user lifecycle hook: whether invoking it throws, and (for
layout-mount / mount hooks) whether it returns a cleanup closure. -/
structure HookSpec where
  throws : Bool
  returnsCleanup : Bool
deriving DecidableEq

/-- Observable lifecycle events, used to phrase ordering properties.
`v`-events belong to the owning View, `b`-events to a Behavior (tagged with
its class name). -/
inductive Ev where
  | vConstruct
  | vAnnotate
  | vCreate
  | vLayout
  | vMount
  | vUnmount
  | vLayoutCleanup
  | vMountCleanup
  | bConstruct (n : String)
  | bAnnotate (n : String)
  | bCreate (n : String) (args : List Nat)
  | bLayout (n : String)
  | bMount (n : String)
  | bUnmount (n : String)
  | bLayoutCleanup (n : String)
  | bMountCleanup (n : String)
  | report (phase : String) (n : String) (isB : Bool)
  | configError
  | renderOut
deriving DecidableEq

/-! ## Variant 2 (`src/unnamed/part_001`, second module): the behavior
module imported by `part_000`.  No try/catch around hooks. -/

/-- A behavior class/instance as seen by variant 2: which hooks it defines.
`mountLegacy` models the legacy `mount` alias checked by variant 2's
`mountBehavior` when `onMount` is absent. -/
structure BehaviorInst2 where
  name : String
  hasOnCreate : Bool
  onLayoutMount : Option HookSpec
  onMount : Option HookSpec
  mountLegacy : Option HookSpec
  onUnmount : Option HookSpec
deriving DecidableEq

/-- Source `BehaviorInstance` (variant 2) / `BehaviorEntry` (variant 1):
the bookkeeping record pairing the instance with the stored cleanups. -/
structure Entry2 where
  inst : BehaviorInst2
  cleanup : Option Unit
  layoutCleanup : Option Unit
deriving DecidableEq

/-- Source `createBehaviorInstance` (variant 2): `new Thing()`, then
`makeAutoObservable` unless `options.observable === false`, then
`onCreate()` (no arguments), returning the instance and a fresh entry.
This is the trace of that construction. -/
def createBehaviorInstanceTrace (b : BehaviorInst2) (observableOpt : Option Bool) : List Ev :=
  [Ev.bConstruct b.name]
    ++ (if observableOpt = some false then [] else [Ev.bAnnotate b.name])
    ++ (if b.hasOnCreate then [Ev.bCreate b.name []] else [])

/-- The entry returned by `createBehaviorInstance`: no cleanups stored yet. -/
def createBehaviorInstanceEntry (b : BehaviorInst2) : Entry2 :=
  ⟨b, none, none⟩

/-- Source `layoutMountBehavior` (variant 2): if `onLayoutMount` exists,
store its returned cleanup in `layoutCleanup`.  No try/catch: a throwing
hook propagates (ok = false) and the assignment does not happen. -/
def layoutMountBehaviorV2 (e : Entry2) : Entry2 × List Ev × Bool :=
  match e.inst.onLayoutMount with
  | none => (e, [], true)
  | some s =>
    if s.throws then (e, [Ev.bLayout e.inst.name], false)
    else ({ e with layoutCleanup := if s.returnsCleanup then some () else none },
          [Ev.bLayout e.inst.name], true)

/-- Source `mountBehavior` (variant 2): `onMount` if present, else the
legacy `mount` alias; the returned cleanup is stored in `cleanup`.
No try/catch: a throwing hook propagates. -/
def mountBehaviorV2 (e : Entry2) : Entry2 × List Ev × Bool :=
  match e.inst.onMount with
  | some s =>
    if s.throws then (e, [Ev.bMount e.inst.name], false)
    else ({ e with cleanup := if s.returnsCleanup then some () else none },
          [Ev.bMount e.inst.name], true)
  | none =>
    match e.inst.mountLegacy with
    | some s =>
      if s.throws then (e, [Ev.bMount e.inst.name], false)
      else ({ e with cleanup := if s.returnsCleanup then some () else none },
            [Ev.bMount e.inst.name], true)
    | none => (e, [], true)

/-- Source `unmountBehavior` (variant 2): call `layoutCleanup` if present,
then `cleanup` if present, then `onUnmount` if present.  Nothing is
cleared: the entry is returned with both cleanup slots unchanged.  A
throwing `onUnmount` propagates (cleanup closures are modelled as
non-throwing). -/
def unmountBehaviorV2 (e : Entry2) : Entry2 × List Ev × Bool :=
  let t1 := if e.layoutCleanup.isSome then [Ev.bLayoutCleanup e.inst.name] else []
  let t2 := if e.cleanup.isSome then [Ev.bMountCleanup e.inst.name] else []
  match e.inst.onUnmount with
  | none => (e, t1 ++ t2, true)
  | some s => (e, t1 ++ t2 ++ [Ev.bUnmount e.inst.name], !s.throws)

/-- Source `View._layoutMountBehaviors`: a plain for-loop over the entries;
an uncaught exception aborts the loop and propagates. -/
def layoutMountBehaviorsV2 : List Entry2 → List Entry2 × List Ev × Bool
  | [] => ([], [], true)
  | e :: rest =>
    let r := layoutMountBehaviorV2 e
    if r.2.2 then
      let rr := layoutMountBehaviorsV2 rest
      (r.1 :: rr.1, r.2.1 ++ rr.2.1, rr.2.2)
    else (r.1 :: rest, r.2.1, false)

/-- Source `View._mountBehaviors`: loop with uncaught propagation. -/
def mountBehaviorsV2 : List Entry2 → List Entry2 × List Ev × Bool
  | [] => ([], [], true)
  | e :: rest =>
    let r := mountBehaviorV2 e
    if r.2.2 then
      let rr := mountBehaviorsV2 rest
      (r.1 :: rr.1, r.2.1 ++ rr.2.1, rr.2.2)
    else (r.1 :: rest, r.2.1, false)

/-- Source `View._unmountBehaviors`: loop with uncaught propagation. -/
def unmountBehaviorsV2 : List Entry2 → List Entry2 × List Ev × Bool
  | [] => ([], [], true)
  | e :: rest =>
    let r := unmountBehaviorV2 e
    if r.2.2 then
      let rr := unmountBehaviorsV2 rest
      (r.1 :: rr.1, r.2.1 ++ rr.2.1, rr.2.2)
    else (r.1 :: rest, r.2.1, false)

/-! ## The `createView` component (`src/unnamed/part_000`). -/

/-- A user View class as seen by `createView`: whether it defines
`render`, `onCreate`, the optional paint-phase hooks, and the behaviors
registered through `use()` during construction (each with the
`observable` option passed at its `use` call site). -/
structure ViewClassModel where
  hasRender : Bool
  hasOnCreate : Bool
  onLayoutMount : Option HookSpec
  onMount : Option HookSpec
  onUnmount : Option HookSpec
  behaviors : List (BehaviorInst2 × Option Bool)
deriving DecidableEq

/-- The body of `createView`'s component on its first render: the
`useState` initializer constructs the instance (running the field
initializers, hence each `use()` call's `createBehaviorInstance`), seeds
the props box and ref, annotates the instance (`makeViewObservable` when
auto-observable, else `makeObservable` — a single annotation step either
way), and calls `onCreate`.  After the initializer the body checks
`if (!template && !vm.render) throw` and otherwise renders.  Returns the
trace and whether the configuration error was thrown. -/
def firstRenderPre (vc : ViewClassModel) : List Ev :=
  Ev.vConstruct ::
    (vc.behaviors.map (fun p => createBehaviorInstanceTrace p.1 p.2)).flatten
    ++ [Ev.vAnnotate] ++ (if vc.hasOnCreate then [Ev.vCreate] else [])

/-- The missing-render check and the final `template ? template(vm) :
vm.render!()` call at the end of the component body. -/
def firstRender (vc : ViewClassModel) (hasTemplate : Bool) : List Ev × Bool :=
  if !hasTemplate && !vc.hasRender then (firstRenderPre vc ++ [Ev.configError], true)
  else (firstRenderPre vc ++ [Ev.renderOut], false)

/-- Result of driving one mount-time phase: updated entries, the cleanup
stored by the View's own hook, the trace, and whether the phase completed
without an uncaught exception. -/
structure PhaseOut where
  entries : List Entry2
  stored : Option Unit
  trace : List Ev
  ok : Bool
deriving DecidableEq

/-- The `useLayoutEffect` body in `createView`:
`vm._layoutMountBehaviors(); const cleanup = vm.onLayoutMount?.();`
— behaviors first, then the View's own hook, whose returned cleanup is
retained by the effect closure. -/
def layoutPhase (vc : ViewClassModel) (entries : List Entry2) : PhaseOut :=
  let r := layoutMountBehaviorsV2 entries
  if r.2.2 then
    match vc.onLayoutMount with
    | none => ⟨r.1, none, r.2.1, true⟩
    | some s =>
      if s.throws then ⟨r.1, none, r.2.1 ++ [Ev.vLayout], false⟩
      else ⟨r.1, if s.returnsCleanup then some () else none,
            r.2.1 ++ [Ev.vLayout], true⟩
  else ⟨r.1, none, r.2.1, false⟩

/-- The `useEffect` body in `createView`:
`vm._mountBehaviors(); const cleanup = vm.onMount?.();`. -/
def mountPhase (vc : ViewClassModel) (entries : List Entry2) : PhaseOut :=
  let r := mountBehaviorsV2 entries
  if r.2.2 then
    match vc.onMount with
    | none => ⟨r.1, none, r.2.1, true⟩
    | some s =>
      if s.throws then ⟨r.1, none, r.2.1 ++ [Ev.vMount], false⟩
      else ⟨r.1, if s.returnsCleanup then some () else none,
            r.2.1 ++ [Ev.vMount], true⟩
  else ⟨r.1, none, r.2.1, false⟩

/-- The `useEffect` teardown in `createView`:
`cleanup?.(); vm.onUnmount?.(); vm._unmountBehaviors();`
— the stored mount cleanup, then the View's explicit unmount hook, then
the behavior teardown loop. -/
def viewEffectCleanup (vc : ViewClassModel) (stored : Option Unit)
    (entries : List Entry2) : List Ev × Bool :=
  let t1 := if stored.isSome then [Ev.vMountCleanup] else []
  match vc.onUnmount with
  | none =>
    let r := unmountBehaviorsV2 entries
    (t1 ++ r.2.1, r.2.2)
  | some s =>
    if s.throws then (t1 ++ [Ev.vUnmount], false)
    else
      let r := unmountBehaviorsV2 entries
      (t1 ++ [Ev.vUnmount] ++ r.2.1, r.2.2)

/-! ## Variant 1 (`src/unnamed/part_001`, first module): `createBehavior`
and the try/catch lifecycle helpers that forward to `reportError`. -/

/-- A behavior class as seen by variant 1 (no legacy `mount` alias). -/
structure BehaviorInst1 where
  name : String
  hasOnCreate : Bool
  onLayoutMount : Option HookSpec
  onMount : Option HookSpec
  onUnmount : Option HookSpec
deriving DecidableEq

/-- Source `BehaviorEntry` (variant 1). -/
structure Entry1 where
  inst : BehaviorInst1
  cleanup : Option Unit
  layoutCleanup : Option Unit
deriving DecidableEq

/-- Source `createBehavior` (variant 1): the factory's internal class
constructor runs `super(...args)`, then `this.onCreate(...args)` if the
hook exists, then annotates the instance (`makeBehaviorObservable` when
auto-observable, else `makeObservable` — one annotation step either way),
and the factory returns the new instance to the caller.  This is the trace
of one factory call with the given arguments. -/
def createBehaviorV1Trace (b : BehaviorInst1) (args : List Nat) : List Ev :=
  [Ev.bConstruct b.name]
    ++ (if b.hasOnCreate then [Ev.bCreate b.name args] else [])
    ++ [Ev.bAnnotate b.name]

/-- Source `layoutMountBehavior` (variant 1): the hook call and cleanup
assignment are wrapped in try/catch; a thrown error is forwarded as
`reportError(e, { phase, name, isBehavior: true })` and does not
propagate — the function always returns. -/
def layoutMountBehaviorV1 (e : Entry1) : Entry1 × List Ev :=
  match e.inst.onLayoutMount with
  | none => (e, [])
  | some s =>
    if s.throws then
      (e, [Ev.bLayout e.inst.name, Ev.report "onLayoutMount" e.inst.name true])
    else
      ({ e with layoutCleanup := if s.returnsCleanup then some () else none },
       [Ev.bLayout e.inst.name])

/-- Source `mountBehavior` (variant 1): try/catch plus `reportError` with
phase "onMount"; never propagates. -/
def mountBehaviorV1 (e : Entry1) : Entry1 × List Ev :=
  match e.inst.onMount with
  | none => (e, [])
  | some s =>
    if s.throws then
      (e, [Ev.bMount e.inst.name, Ev.report "onMount" e.inst.name true])
    else
      ({ e with cleanup := if s.returnsCleanup then some () else none },
       [Ev.bMount e.inst.name])

/-- Source `unmountBehavior` (variant 1): `layoutCleanup?.()`, then
`cleanup?.()`, then `onUnmount()` inside try/catch with phase
"onUnmount".  Nothing is cleared. -/
def unmountBehaviorV1 (e : Entry1) : Entry1 × List Ev :=
  let t1 := if e.layoutCleanup.isSome then [Ev.bLayoutCleanup e.inst.name] else []
  let t2 := if e.cleanup.isSome then [Ev.bMountCleanup e.inst.name] else []
  match e.inst.onUnmount with
  | none => (e, t1 ++ t2)
  | some s =>
    if s.throws then
      (e, t1 ++ t2 ++ [Ev.bUnmount e.inst.name, Ev.report "onUnmount" e.inst.name true])
    else (e, t1 ++ t2 ++ [Ev.bUnmount e.inst.name])

/-- Modelled from the spec: the variant-1 registry driver.  The module
that drives variant-1 behaviors ("mantle", re-exported by src/src/index.ts)
is not under src/; §4.3 of the spec says the owning View drives all
registered Behaviors' mount phases "in one pass each, in registration
order".  Since variant-1 `mountBehavior` never throws, the pass is a plain
fold. -/
def mountBehaviorsV1 : List Entry1 → List Entry1 × List Ev
  | [] => ([], [])
  | e :: rest =>
    let r := mountBehaviorV1 e
    let rr := mountBehaviorsV1 rest
    (r.1 :: rr.1, r.2 ++ rr.2)

/-! ## Generic helper lemmas. -/

/-- If x can only occur in the left part of an append and y only in the
right part, every index of x is strictly below every index of y. -/
theorem before_of_notMem {α : Type} {l1 l2 : List α} {x y : α}
    (hx : x ∉ l2) (hy : y ∉ l1) :
    ∀ (i j : Nat), (l1 ++ l2)[i]? = some x → (l1 ++ l2)[j]? = some y → i < j := by
  intro i j hi hj
  have hilen : i < l1.length := by
    by_contra h
    rw [List.getElem?_append, if_neg h] at hi
    exact hx (List.getElem?_mem hi)
  have hjlen : l1.length ≤ j := by
    by_contra h
    have hjlt : j < l1.length := by omega
    rw [List.getElem?_append, if_pos hjlt] at hj
    exact hy (List.getElem?_mem hj)
  omega

/-- Construction-side events: the ones a View or Behavior construction can
emit. -/
def Ev.isBehaviorSetup : Ev → Bool
  | .bConstruct _ => true
  | .bAnnotate _ => true
  | .bCreate _ _ => true
  | _ => false

/-- Behavior layout-hook events. -/
def Ev.isBLayoutHook : Ev → Bool
  | .bLayout _ => true
  | _ => false

/-- Behavior mount-hook events. -/
def Ev.isBMountHook : Ev → Bool
  | .bMount _ => true
  | _ => false

/-- Behavior teardown events (cleanups and unmount hook). -/
def Ev.isBehaviorTeardown : Ev → Bool
  | .bLayoutCleanup _ => true
  | .bMountCleanup _ => true
  | .bUnmount _ => true
  | _ => false

/-- Every event of a `createBehaviorInstance` construction trace is a
behavior setup event. -/
theorem cbiTrace_shape {b : BehaviorInst2} {opt : Option Bool} {e : Ev}
    (h : e ∈ createBehaviorInstanceTrace b opt) : e.isBehaviorSetup = true := by
  by_cases h1 : opt = some false <;> by_cases h2 : b.hasOnCreate = true <;>
    simp [createBehaviorInstanceTrace, h1, h2] at h <;>
    first
      | (rcases h with rfl | rfl | rfl <;> rfl)
      | (rcases h with rfl | rfl <;> rfl)
      | (subst h; rfl)

/-- Every event of the behavior-registration part of a View construction
is a behavior setup event. -/
theorem registrationTrace_shape {vc : ViewClassModel} {e : Ev}
    (h : e ∈ (vc.behaviors.map (fun p => createBehaviorInstanceTrace p.1 p.2)).flatten) :
    e.isBehaviorSetup = true := by
  rw [List.mem_flatten] at h
  obtain ⟨l, hl, he⟩ := h
  rw [List.mem_map] at hl
  obtain ⟨p, _, rfl⟩ := hl
  exact cbiTrace_shape he

/-- The configuration error never occurs before the missing-render check. -/
theorem configError_not_mem_pre (vc : ViewClassModel) :
    Ev.configError ∉ firstRenderPre vc := by
  intro h
  simp only [firstRenderPre, List.mem_cons, List.mem_append, List.not_mem_nil,
    or_false, false_or] at h
  rcases h with ((h | h) | h) | h
  · exact absurd h (by simp)
  · exact absurd (registrationTrace_shape h) (by decide)
  · exact absurd h (by simp)
  · split at h <;> simp at h

/-- The render output never occurs before the missing-render check. -/
theorem renderOut_not_mem_pre (vc : ViewClassModel) :
    Ev.renderOut ∉ firstRenderPre vc := by
  intro h
  simp only [firstRenderPre, List.mem_cons, List.mem_append, List.not_mem_nil,
    or_false, false_or] at h
  rcases h with ((h | h) | h) | h
  · exact absurd h (by simp)
  · exact absurd (registrationTrace_shape h) (by decide)
  · exact absurd h (by simp)
  · split at h <;> simp at h

/-- The View create hook event never occurs in the construction/annotate
part of the first render. -/
theorem vCreate_not_mem_ctPrefix (vc : ViewClassModel) :
    Ev.vCreate ∉ (Ev.vConstruct ::
      (vc.behaviors.map (fun p => createBehaviorInstanceTrace p.1 p.2)).flatten
      ++ [Ev.vAnnotate]) := by
  intro h
  simp only [List.mem_cons, List.mem_append, List.not_mem_nil, or_false, false_or] at h
  rcases h with (h | h) | h
  · exact absurd h (by simp)
  · exact absurd (registrationTrace_shape h) (by decide)
  · exact absurd h (by simp)

/-- All events produced by the variant-2 layout-mount loop are behavior
layout-hook events. -/
theorem layoutLoopV2_shape :
    ∀ (entries : List Entry2) (e : Ev),
      e ∈ (layoutMountBehaviorsV2 entries).2.1 → e.isBLayoutHook = true := by
  intro entries
  induction entries with
  | nil => intro e h; simp [layoutMountBehaviorsV2] at h
  | cons hd tl ih =>
    intro e h
    have hstep : ∀ x, x ∈ (layoutMountBehaviorV2 hd).2.1 → x.isBLayoutHook = true := by
      intro x hx
      rcases ho : hd.inst.onLayoutMount with _ | s
      · simp [layoutMountBehaviorV2, ho] at hx
      · by_cases hs : s.throws = true <;>
          simp [layoutMountBehaviorV2, ho, hs] at hx <;> subst hx <;> rfl
    rw [layoutMountBehaviorsV2] at h
    by_cases hok : (layoutMountBehaviorV2 hd).2.2 = true <;> simp [hok] at h
    · rcases h with h | h
      · exact hstep e h
      · exact ih e h
    · exact hstep e h

/-- All events produced by the variant-2 mount loop are behavior
mount-hook events. -/
theorem mountLoopV2_shape :
    ∀ (entries : List Entry2) (e : Ev),
      e ∈ (mountBehaviorsV2 entries).2.1 → e.isBMountHook = true := by
  intro entries
  induction entries with
  | nil => intro e h; simp [mountBehaviorsV2] at h
  | cons hd tl ih =>
    intro e h
    have hstep : ∀ x, x ∈ (mountBehaviorV2 hd).2.1 → x.isBMountHook = true := by
      intro x hx
      rcases ho : hd.inst.onMount with _ | s
      · rcases hl : hd.inst.mountLegacy with _ | s2
        · simp [mountBehaviorV2, ho, hl] at hx
        · by_cases hs : s2.throws = true <;>
            simp [mountBehaviorV2, ho, hl, hs] at hx <;> subst hx <;> rfl
      · by_cases hs : s.throws = true <;>
          simp [mountBehaviorV2, ho, hs] at hx <;> subst hx <;> rfl
    rw [mountBehaviorsV2] at h
    by_cases hok : (mountBehaviorV2 hd).2.2 = true <;> simp [hok] at h
    · rcases h with h | h
      · exact hstep e h
      · exact ih e h
    · exact hstep e h

/-- All events produced by the variant-2 unmount loop are behavior
teardown events. -/
theorem unmountLoopV2_shape :
    ∀ (entries : List Entry2) (e : Ev),
      e ∈ (unmountBehaviorsV2 entries).2.1 → e.isBehaviorTeardown = true := by
  intro entries
  induction entries with
  | nil => intro e h; simp [unmountBehaviorsV2] at h
  | cons hd tl ih =>
    intro e h
    have hstep : ∀ x, x ∈ (unmountBehaviorV2 hd).2.1 → x.isBehaviorTeardown = true := by
      intro x hx
      rcases ho : hd.inst.onUnmount with _ | s <;>
        by_cases h1 : hd.layoutCleanup.isSome = true <;>
        by_cases h2 : hd.cleanup.isSome = true <;>
        simp [unmountBehaviorV2, ho, h1, h2] at hx <;>
        rcases hx with rfl | rfl | rfl <;> rfl
    rw [unmountBehaviorsV2] at h
    by_cases hok : (unmountBehaviorV2 hd).2.2 = true <;> simp [hok] at h
    · rcases h with h | h
      · exact hstep e h
      · exact ih e h
    · exact hstep e h

/-! ## Concrete instances used by counterexamples and witnesses. -/

/-- A View class with no render method, an onCreate hook, no behaviors. -/
def vcNoRender : ViewClassModel := ⟨false, true, none, none, none, []⟩

/-- A View class with a render method and non-throwing layout/mount hooks. -/
def vcHooks : ViewClassModel :=
  ⟨true, false, some ⟨false, false⟩, some ⟨false, false⟩, none, []⟩

/-- A View class with a render method and an onUnmount hook only. -/
def vcUnmountOnly : ViewClassModel :=
  ⟨true, false, none, none, some ⟨false, false⟩, []⟩

/-- A behavior with only a non-throwing onLayoutMount hook. -/
def behLayoutB : BehaviorInst2 := ⟨"b", false, some ⟨false, false⟩, none, none, none⟩

/-- A behavior with only a non-throwing onMount hook. -/
def behMountB : BehaviorInst2 := ⟨"b", false, none, some ⟨false, false⟩, none, none⟩

/-- A behavior whose onMount hook throws. -/
def instThrowA : BehaviorInst2 := ⟨"A", false, none, some ⟨true, false⟩, none, none⟩

/-- A behavior with a non-throwing onMount hook, registered after instThrowA. -/
def instOkB : BehaviorInst2 := ⟨"B", false, none, some ⟨false, false⟩, none, none⟩

/-- A behavior instance with no hooks at all. -/
def instNoHooksX : BehaviorInst2 := ⟨"X", false, none, none, none, none⟩

/-- An entry holding both a layout cleanup and a mount cleanup. -/
def entryBothCleanups : Entry2 := ⟨instNoHooksX, some (), some ()⟩

/-- A behavior with an onUnmount hook. -/
def instAllTeardown : BehaviorInst2 := ⟨"u", false, none, none, none, some ⟨false, false⟩⟩

/-- An entry with both cleanups stored and an onUnmount hook. -/
def entryAllTeardown : Entry2 := ⟨instAllTeardown, some (), some ()⟩

/-- Variant-1 entry whose onMount throws. -/
def e1ThrowA : Entry1 := ⟨⟨"A", false, none, some ⟨true, false⟩, none⟩, none, none⟩

/-- Variant-1 entry with a fine onMount, registered after e1ThrowA. -/
def e1OkB : Entry1 := ⟨⟨"B", false, none, some ⟨false, false⟩, none⟩, none, none⟩

/-- A variant-1 behavior class with an onCreate hook. -/
def behInst1F : BehaviorInst1 := ⟨"F", true, none, none, none⟩

/-! ## Claim C1. -/

/-- C1 counterexample: for a View with no render method and no template,
the configuration error is thrown during the first render at index 3 of
the trace, strictly after the instance construction (index 0) and after
the create hook (index 2) — not "at build time, before any View instance
is constructed" as the claim states. -/
theorem C1_counterexample :
    (firstRender vcNoRender false).2 = true ∧
    (firstRender vcNoRender false).1[0]? = some Ev.vConstruct ∧
    (firstRender vcNoRender false).1[2]? = some Ev.vCreate ∧
    (firstRender vcNoRender false).1[3]? = some Ev.configError := by
  decide

/-- C1 (amended): if neither a template nor a render method exists, the
configuration error is raised synchronously during the component's first
render — after the View instance is constructed and after its create hook
has run, and before any render output is produced (the factory call itself
raises nothing). -/
theorem C1_configError_first_render (vc : ViewClassModel) (h : vc.hasRender = false) :
    (firstRender vc false).2 = true ∧
    Ev.configError ∈ (firstRender vc false).1 ∧
    Ev.renderOut ∉ (firstRender vc false).1 ∧
    (∀ (i j : Nat), (firstRender vc false).1[i]? = some Ev.vConstruct →
      (firstRender vc false).1[j]? = some Ev.configError → i < j) ∧
    (∀ (i j : Nat), (firstRender vc false).1[i]? = some Ev.vCreate →
      (firstRender vc false).1[j]? = some Ev.configError → i < j) := by
  have htr : firstRender vc false = (firstRenderPre vc ++ [Ev.configError], true) := by
    simp [firstRender, h]
  rw [htr]
  refine ⟨rfl, by simp, ?_, ?_, ?_⟩
  · intro hmem
    rcases List.mem_append.mp hmem with hmem | hmem
    · exact renderOut_not_mem_pre vc hmem
    · simp at hmem
  · exact before_of_notMem (by simp) (configError_not_mem_pre vc)
  · exact before_of_notMem (by simp) (configError_not_mem_pre vc)

/-- Witness for C1: the amended theorem applied to the concrete no-render
View class. -/
theorem C1_witness :
    (firstRender vcNoRender false).2 = true ∧ (0 : Nat) < 3 ∧ (2 : Nat) < 3 := by
  have h := C1_configError_first_render vcNoRender rfl
  exact ⟨h.1, h.2.2.2.1 0 3 (by decide) (by decide),
    h.2.2.2.2 2 3 (by decide) (by decide)⟩

/-! ## Claim C2. -/

/-- C2 counterexample: in the mount phase of a View with one behavior,
the behavior's mount hook fires at index 0 and the View's own mount hook
at index 1, so the claim "Behavior mount is sequenced after the View's
own mount hook" fails at this input. -/
theorem C2_counterexample :
    ¬ (∀ (i j : Nat),
        (mountPhase vcHooks [⟨behMountB, none, none⟩]).trace[i]? =
          some (Ev.bMount "b") →
        (mountPhase vcHooks [⟨behMountB, none, none⟩]).trace[j]? =
          some Ev.vMount → j < i) := by
  intro hcl
  have := hcl 0 1 (by decide) (by decide)
  omega

/-- Trace split of the layout phase: loop trace first, then at most the
View's own hook event. -/
theorem layoutPhase_trace_split (vc : ViewClassModel) (entries : List Entry2) :
    ∃ tail, (layoutPhase vc entries).trace =
      (layoutMountBehaviorsV2 entries).2.1 ++ tail ∧
      (tail = [] ∨ tail = [Ev.vLayout]) := by
  by_cases hok : (layoutMountBehaviorsV2 entries).2.2 = true
  · rcases ho : vc.onLayoutMount with _ | s
    · exact ⟨[], by simp [layoutPhase, hok, ho], Or.inl rfl⟩
    · by_cases hs : s.throws = true
      · exact ⟨[Ev.vLayout], by simp [layoutPhase, hok, ho, hs], Or.inr rfl⟩
      · exact ⟨[Ev.vLayout], by simp [layoutPhase, hok, ho, hs], Or.inr rfl⟩
  · exact ⟨[], by simp [layoutPhase, hok], Or.inl rfl⟩

/-- Trace split of the mount phase: loop trace first, then at most the
View's own hook event. -/
theorem mountPhase_trace_split (vc : ViewClassModel) (entries : List Entry2) :
    ∃ tail, (mountPhase vc entries).trace =
      (mountBehaviorsV2 entries).2.1 ++ tail ∧
      (tail = [] ∨ tail = [Ev.vMount]) := by
  by_cases hok : (mountBehaviorsV2 entries).2.2 = true
  · rcases ho : vc.onMount with _ | s
    · exact ⟨[], by simp [mountPhase, hok, ho], Or.inl rfl⟩
    · by_cases hs : s.throws = true
      · exact ⟨[Ev.vMount], by simp [mountPhase, hok, ho, hs], Or.inr rfl⟩
      · exact ⟨[Ev.vMount], by simp [mountPhase, hok, ho, hs], Or.inr rfl⟩
  · exact ⟨[], by simp [mountPhase, hok], Or.inl rfl⟩

/-- C2 (amended): in both the layout-mount and the mount phase the
registered Behaviors' hooks are invoked strictly before the owning View's
own same-phase hook — the opposite order from the claim. -/
theorem C2_behaviors_before_view_hook (vc : ViewClassModel) (entries : List Entry2) :
    (∀ (n : String) (i j : Nat),
       (layoutPhase vc entries).trace[i]? = some (Ev.bLayout n) →
       (layoutPhase vc entries).trace[j]? = some Ev.vLayout → i < j) ∧
    (∀ (n : String) (i j : Nat),
       (mountPhase vc entries).trace[i]? = some (Ev.bMount n) →
       (mountPhase vc entries).trace[j]? = some Ev.vMount → i < j) := by
  constructor
  · intro n i j hi hj
    obtain ⟨tail, htr, hcase⟩ := layoutPhase_trace_split vc entries
    rw [htr] at hi hj
    refine before_of_notMem ?_ ?_ i j hi hj
    · rcases hcase with rfl | rfl <;> simp
    · intro hmem
      exact absurd (layoutLoopV2_shape entries _ hmem) (by decide)
  · intro n i j hi hj
    obtain ⟨tail, htr, hcase⟩ := mountPhase_trace_split vc entries
    rw [htr] at hi hj
    refine before_of_notMem ?_ ?_ i j hi hj
    · rcases hcase with rfl | rfl <;> simp
    · intro hmem
      exact absurd (mountLoopV2_shape entries _ hmem) (by decide)

/-- Witness for C2: the amended theorem applied to concrete phases. -/
theorem C2_witness : (0 : Nat) < 1 ∧ (0 : Nat) < 1 := by
  have h1 := C2_behaviors_before_view_hook vcHooks [⟨behLayoutB, none, none⟩]
  have h2 := C2_behaviors_before_view_hook vcHooks [⟨behMountB, none, none⟩]
  exact ⟨h1.1 "b" 0 1 (by decide) (by decide), h2.2 "b" 0 1 (by decide) (by decide)⟩

/-! ## Claim C3. -/

/-- C3 counterexample: invoking `unmountBehavior` (variant 2, the one
wired into the View) twice in sequence on an entry holding both cleanups
invokes each cleanup closure twice — the stored cleanups are not cleared. -/
theorem C3_counterexample :
    (((unmountBehaviorV2 entryBothCleanups).2.1 ++
        (unmountBehaviorV2 (unmountBehaviorV2 entryBothCleanups).1).2.1).count
      (Ev.bMountCleanup "X") = 2) ∧
    (((unmountBehaviorV2 entryBothCleanups).2.1 ++
        (unmountBehaviorV2 (unmountBehaviorV2 entryBothCleanups).1).2.1).count
      (Ev.bLayoutCleanup "X") = 2) := by
  decide

/-- C3 (amended): `unmountBehavior` never clears the stored cleanups — the
entry comes back unchanged.  Each unmount invocation calls each stored
cleanup exactly once, so two invocations in sequence call each stored
cleanup exactly twice.  (Each cleanup runs at most once only because the
host runs the unmount phase once per mount.) -/
theorem C3_cleanups_not_cleared (e : Entry2) :
    (unmountBehaviorV2 e).1 = e ∧
    ((unmountBehaviorV2 e).2.1.count (Ev.bMountCleanup e.inst.name) =
      if e.cleanup.isSome then 1 else 0) ∧
    ((unmountBehaviorV2 e).2.1.count (Ev.bLayoutCleanup e.inst.name) =
      if e.layoutCleanup.isSome then 1 else 0) ∧
    (((unmountBehaviorV2 e).2.1 ++
        (unmountBehaviorV2 (unmountBehaviorV2 e).1).2.1).count
      (Ev.bMountCleanup e.inst.name) = if e.cleanup.isSome then 2 else 0) ∧
    (((unmountBehaviorV2 e).2.1 ++
        (unmountBehaviorV2 (unmountBehaviorV2 e).1).2.1).count
      (Ev.bLayoutCleanup e.inst.name) = if e.layoutCleanup.isSome then 2 else 0) := by
  rcases ho : e.inst.onUnmount with _ | s <;>
    by_cases h1 : e.layoutCleanup.isSome = true <;>
    by_cases h2 : e.cleanup.isSome = true <;>
    simp [unmountBehaviorV2, ho, h1, h2, List.count_append, List.count_cons]

/-! ## Claim C4. -/

/-- The trace of variant-2 `unmountBehavior` as three optional segments in
teardown order. -/
theorem unmountV2_trace (e : Entry2) :
    (unmountBehaviorV2 e).2.1 =
      (if e.layoutCleanup.isSome then [Ev.bLayoutCleanup e.inst.name] else []) ++
      (if e.cleanup.isSome then [Ev.bMountCleanup e.inst.name] else []) ++
      (if e.inst.onUnmount.isSome then [Ev.bUnmount e.inst.name] else []) := by
  rcases ho : e.inst.onUnmount with _ | s <;> simp [unmountBehaviorV2, ho]

/-- An event distinct from the singleton content is not in an optional
singleton segment. -/
theorem not_mem_iteSingleton {x y : Ev} (c : Prop) [Decidable c] (hne : x ≠ y) :
    x ∉ (if c then [y] else []) := by
  split <;> simp [hne]

/-- C4: within the unmount phase of every Behavior entry, the layout-mount
cleanup (iff stored) runs first, then the mount cleanup (iff stored), then
the user's explicit unmount hook (iff defined); and in the View's own
unmount effect the stored mount cleanup runs before the explicit unmount
hook.  (The View's layout cleanup is invoked by the layout effect's own
teardown closure, which the host runs before the mount effect's teardown.) -/
theorem C4_unmount_teardown_order :
    (∀ e : Entry2,
      (Ev.bLayoutCleanup e.inst.name ∈ (unmountBehaviorV2 e).2.1 ↔
        e.layoutCleanup.isSome = true) ∧
      (Ev.bMountCleanup e.inst.name ∈ (unmountBehaviorV2 e).2.1 ↔
        e.cleanup.isSome = true) ∧
      (Ev.bUnmount e.inst.name ∈ (unmountBehaviorV2 e).2.1 ↔
        e.inst.onUnmount.isSome = true) ∧
      (∀ (i j : Nat),
        (unmountBehaviorV2 e).2.1[i]? = some (Ev.bLayoutCleanup e.inst.name) →
        (unmountBehaviorV2 e).2.1[j]? = some (Ev.bMountCleanup e.inst.name) → i < j) ∧
      (∀ (i j : Nat),
        (unmountBehaviorV2 e).2.1[i]? = some (Ev.bMountCleanup e.inst.name) →
        (unmountBehaviorV2 e).2.1[j]? = some (Ev.bUnmount e.inst.name) → i < j) ∧
      (∀ (i j : Nat),
        (unmountBehaviorV2 e).2.1[i]? = some (Ev.bLayoutCleanup e.inst.name) →
        (unmountBehaviorV2 e).2.1[j]? = some (Ev.bUnmount e.inst.name) → i < j)) ∧
    (∀ (vc : ViewClassModel) (stored : Option Unit) (entries : List Entry2) (i j : Nat),
      (viewEffectCleanup vc stored entries).1[i]? = some Ev.vMountCleanup →
      (viewEffectCleanup vc stored entries).1[j]? = some Ev.vUnmount → i < j) := by
  constructor
  · intro e
    have htr := unmountV2_trace e
    have hlc23 : Ev.bLayoutCleanup e.inst.name ∉
        ((if e.cleanup.isSome = true then [Ev.bMountCleanup e.inst.name] else []) ++
         (if e.inst.onUnmount.isSome = true then [Ev.bUnmount e.inst.name] else [])) := by
      intro hm
      rcases List.mem_append.mp hm with hm | hm
      · exact not_mem_iteSingleton _ (by simp) hm
      · exact not_mem_iteSingleton _ (by simp) hm
    have hmc1 : Ev.bMountCleanup e.inst.name ∉
        (if e.layoutCleanup.isSome = true then [Ev.bLayoutCleanup e.inst.name] else []) :=
      not_mem_iteSingleton _ (by simp)
    have hmc3 : Ev.bMountCleanup e.inst.name ∉
        (if e.inst.onUnmount.isSome = true then [Ev.bUnmount e.inst.name] else []) :=
      not_mem_iteSingleton _ (by simp)
    have hlc3 : Ev.bLayoutCleanup e.inst.name ∉
        (if e.inst.onUnmount.isSome = true then [Ev.bUnmount e.inst.name] else []) :=
      not_mem_iteSingleton _ (by simp)
    have hu12 : Ev.bUnmount e.inst.name ∉
        ((if e.layoutCleanup.isSome = true then [Ev.bLayoutCleanup e.inst.name] else []) ++
         (if e.cleanup.isSome = true then [Ev.bMountCleanup e.inst.name] else [])) := by
      intro hm
      rcases List.mem_append.mp hm with hm | hm
      · exact not_mem_iteSingleton _ (by simp) hm
      · exact not_mem_iteSingleton _ (by simp) hm
    refine ⟨?_, ?_, ?_, ?_, ?_, ?_⟩
    · rw [htr]
      cases h1 : e.layoutCleanup.isSome <;> cases h2 : e.cleanup.isSome <;>
        cases h3 : e.inst.onUnmount.isSome <;> simp [h1, h2, h3]
    · rw [htr]
      cases h1 : e.layoutCleanup.isSome <;> cases h2 : e.cleanup.isSome <;>
        cases h3 : e.inst.onUnmount.isSome <;> simp [h1, h2, h3]
    · rw [htr]
      cases h1 : e.layoutCleanup.isSome <;> cases h2 : e.cleanup.isSome <;>
        cases h3 : e.inst.onUnmount.isSome <;> simp [h1, h2, h3]
    · intro i j hi hj
      rw [htr, List.append_assoc] at hi hj
      exact before_of_notMem hlc23 hmc1 i j hi hj
    · intro i j hi hj
      rw [htr] at hi hj
      exact before_of_notMem hmc3 hu12 i j hi hj
    · intro i j hi hj
      rw [htr] at hi hj
      exact before_of_notMem hlc3 hu12 i j hi hj
  · intro vc stored entries i j hi hj
    have hstored : Ev.vUnmount ∉
        (if stored.isSome = true then [Ev.vMountCleanup] else []) :=
      not_mem_iteSingleton _ (by simp)
    rcases ho : vc.onUnmount with _ | s
    · exfalso
      simp only [viewEffectCleanup, ho] at hj
      rcases List.mem_append.mp (List.getElem?_mem hj) with hm | hm
      · exact not_mem_iteSingleton _ (by simp) hm
      · exact absurd (unmountLoopV2_shape entries _ hm) (by decide)
    · by_cases hs : s.throws = true
      · simp only [viewEffectCleanup, ho, hs, if_true] at hi hj
        refine before_of_notMem ?_ hstored i j hi hj
        simp
      · simp only [viewEffectCleanup, ho, hs, if_false, Bool.false_eq_true,
          List.append_assoc] at hi hj
        refine before_of_notMem ?_ hstored i j hi hj
        intro hm
        rcases List.mem_append.mp hm with hm | hm
        · simp at hm
        · exact absurd (unmountLoopV2_shape entries _ hm) (by decide)

/-- Witness for C4: the teardown-order theorem applied to an entry with
both cleanups and an unmount hook, and to a View with a stored mount
cleanup and an unmount hook. -/
theorem C4_witness :
    ((0 : Nat) < 1 ∧ (1 : Nat) < 2 ∧ (0 : Nat) < 2) ∧ (0 : Nat) < 1 := by
  have h := C4_unmount_teardown_order
  refine ⟨⟨?_, ?_, ?_⟩, ?_⟩
  · exact (h.1 entryAllTeardown).2.2.2.1 0 1 (by decide) (by decide)
  · exact (h.1 entryAllTeardown).2.2.2.2.1 1 2 (by decide) (by decide)
  · exact (h.1 entryAllTeardown).2.2.2.2.2 0 2 (by decide) (by decide)
  · exact h.2 vcUnmountOnly (some ()) [] 0 1 (by decide) (by decide)

/-! ## Claim C5. -/

/-- C5 counterexample: in the wired variant (View.use and the second
behavior module), a behavior whose onMount throws is not caught: no
report event is emitted, the exception propagates (ok = false), the
later-registered sibling's mount hook never runs, and the owning View's
own mount hook never runs. -/
theorem C5_counterexample :
    (mountPhase vcHooks [⟨instThrowA, none, none⟩, ⟨instOkB, none, none⟩]).trace =
      [Ev.bMount "A"] ∧
    (mountPhase vcHooks [⟨instThrowA, none, none⟩, ⟨instOkB, none, none⟩]).ok = false := by
  decide

/-- C5 (amended): in the createBehavior variant (first behavior module) a
throwing layout-mount/mount/unmount hook is caught and forwarded to the
error reporter with the phase name, the concrete type name and
isBehavior = true, the hook functions always return normally (the entry
is left unchanged on a throwing mount), and a registration-order pass
still runs every entry's mount hook; in the variant wired into the View
the error instead propagates (see the counterexample). -/
theorem C5_v1_catches_and_reports :
    (∀ (e : Entry1) (s : HookSpec), e.inst.onMount = some s → s.throws = true →
      (mountBehaviorV1 e).2 =
        [Ev.bMount e.inst.name, Ev.report "onMount" e.inst.name true] ∧
      (mountBehaviorV1 e).1 = e) ∧
    (∀ (e : Entry1) (s : HookSpec), e.inst.onLayoutMount = some s → s.throws = true →
      (layoutMountBehaviorV1 e).2 =
        [Ev.bLayout e.inst.name, Ev.report "onLayoutMount" e.inst.name true]) ∧
    (∀ (e : Entry1) (s : HookSpec), e.inst.onUnmount = some s → s.throws = true →
      Ev.report "onUnmount" e.inst.name true ∈ (unmountBehaviorV1 e).2) ∧
    (∀ (entries : List Entry1), ∀ e ∈ entries, e.inst.onMount.isSome = true →
      Ev.bMount e.inst.name ∈ (mountBehaviorsV1 entries).2) := by
  refine ⟨?_, ?_, ?_, ?_⟩
  · intro e s h hs
    constructor <;> simp [mountBehaviorV1, h, hs]
  · intro e s h hs
    simp [layoutMountBehaviorV1, h, hs]
  · intro e s h hs
    simp [unmountBehaviorV1, h, hs]
  · intro entries
    induction entries with
    | nil => intro e he; simp at he
    | cons hd tl ih =>
      intro e he hsome
      rw [mountBehaviorsV1, List.mem_append]
      rcases List.mem_cons.mp he with rfl | he2
      · left
        rcases ho : e.inst.onMount with _ | s
        · rw [ho] at hsome; simp at hsome
        · by_cases hs : s.throws = true <;> simp [mountBehaviorV1, ho, hs]
      · right
        exact ih e he2 hsome

/-- Witness for C5: the amended theorem applied to a throwing entry and a
two-entry registration list. -/
theorem C5_witness :
    (mountBehaviorV1 e1ThrowA).2 = [Ev.bMount "A", Ev.report "onMount" "A" true] ∧
    Ev.bMount "B" ∈ (mountBehaviorsV1 [e1ThrowA, e1OkB]).2 := by
  have h := C5_v1_catches_and_reports
  exact ⟨(h.1 e1ThrowA ⟨true, false⟩ rfl rfl).1,
    h.2.2.2 [e1ThrowA, e1OkB] e1OkB (by decide) (by decide)⟩

/-! ## Claim C6. -/

/-- C6 counterexample: in the `createBehavior` variant the create hook is
invoked at index 1 of the construction trace, before the annotation step
at index 2 — not "immediately after the reactive annotation step
completes" as the claim states for every View or Behavior instance. -/
theorem C6_counterexample :
    ¬ (∀ (i j : Nat),
        (createBehaviorV1Trace behInst1F [5])[i]? = some (Ev.bAnnotate "F") →
        (createBehaviorV1Trace behInst1F [5])[j]? = some (Ev.bCreate "F" [5]) →
        i < j) := by
  intro hcl
  have := hcl 2 1 (by decide) (by decide)
  omega

/-- The View create event never occurs in a behavior-registration trace. -/
theorem vCreate_count_registration (vc : ViewClassModel) :
    ((vc.behaviors.map (fun p => createBehaviorInstanceTrace p.1 p.2)).flatten).count
      Ev.vCreate = 0 :=
  List.count_eq_zero.mpr (fun h => absurd (registrationTrace_shape h) (by decide))

/-- C6 (amended): the create hook runs exactly once and synchronously in
all three construction paths, before the instance is handed back; it runs
after the annotation step for Views (`createView`) and for behaviors
registered through `View.use` (`createBehaviorInstance`), but before the
annotation step for behaviors built by `createBehavior`. -/
theorem C6_create_hook_position :
    (∀ (vc : ViewClassModel) (tpl : Bool),
      ((firstRender vc tpl).1.count Ev.vCreate = if vc.hasOnCreate then 1 else 0) ∧
      (∀ (i j : Nat), (firstRender vc tpl).1[i]? = some Ev.vAnnotate →
        (firstRender vc tpl).1[j]? = some Ev.vCreate → i < j)) ∧
    (∀ (b : BehaviorInst2) (opt : Option Bool),
      ((createBehaviorInstanceTrace b opt).count (Ev.bCreate b.name []) =
        if b.hasOnCreate then 1 else 0) ∧
      (∀ (i j : Nat),
        (createBehaviorInstanceTrace b opt)[i]? = some (Ev.bAnnotate b.name) →
        (createBehaviorInstanceTrace b opt)[j]? = some (Ev.bCreate b.name []) →
        i < j)) ∧
    (∀ (b : BehaviorInst1) (args : List Nat),
      ((createBehaviorV1Trace b args).count (Ev.bCreate b.name args) =
        if b.hasOnCreate then 1 else 0) ∧
      (∀ (i j : Nat),
        (createBehaviorV1Trace b args)[i]? = some (Ev.bCreate b.name args) →
        (createBehaviorV1Trace b args)[j]? = some (Ev.bAnnotate b.name) → i < j)) := by
  refine ⟨?_, ?_, ?_⟩
  · intro vc tpl
    constructor
    · have hflat := vCreate_count_registration vc
      by_cases hc : vc.hasOnCreate = true <;>
        by_cases ht : (!tpl && !vc.hasRender) = true <;>
          simp [firstRender, firstRenderPre, ht, hc, List.count_append,
            List.count_cons, hflat]
    · intro i j hi hj
      have hx : Ev.vAnnotate ∉
          ((if vc.hasOnCreate then [Ev.vCreate] else []) ++
            [if (!tpl && !vc.hasRender) = true then Ev.configError else Ev.renderOut]) := by
        intro hm
        rcases List.mem_append.mp hm with hm | hm
        · exact not_mem_iteSingleton _ (by simp) hm
        · simp at hm
          split at hm <;> simp at hm
      have hy := vCreate_not_mem_ctPrefix vc
      have htr : (firstRender vc tpl).1 =
          ((Ev.vConstruct ::
            (vc.behaviors.map (fun p => createBehaviorInstanceTrace p.1 p.2)).flatten
            ++ [Ev.vAnnotate]) ++
           ((if vc.hasOnCreate then [Ev.vCreate] else []) ++
            [if (!tpl && !vc.hasRender) = true then Ev.configError else Ev.renderOut])) := by
        by_cases ht : (!tpl && !vc.hasRender) = true <;>
          simp [firstRender, firstRenderPre, ht]
      rw [htr] at hi hj
      exact before_of_notMem hx hy i j hi hj
  · intro b opt
    constructor
    · by_cases h1 : opt = some false <;> by_cases h2 : b.hasOnCreate = true <;>
        simp [createBehaviorInstanceTrace, h1, h2, List.count_append, List.count_cons]
    · intro i j hi hj
      have hx : Ev.bAnnotate b.name ∉
          (if b.hasOnCreate then [Ev.bCreate b.name []] else []) :=
        not_mem_iteSingleton _ (by simp)
      have hy : Ev.bCreate b.name [] ∉
          ([Ev.bConstruct b.name] ++
            (if opt = some false then [] else [Ev.bAnnotate b.name])) := by
        intro hm
        rcases List.mem_append.mp hm with hm | hm
        · simp at hm
        · split at hm <;> simp at hm
      rw [createBehaviorInstanceTrace] at hi hj
      exact before_of_notMem hx hy i j hi hj
  · intro b args
    constructor
    · by_cases h2 : b.hasOnCreate = true <;>
        simp [createBehaviorV1Trace, h2, List.count_append, List.count_cons]
    · intro i j hi hj
      have hx : Ev.bCreate b.name args ∉ [Ev.bAnnotate b.name] := by simp
      have hy : Ev.bAnnotate b.name ∉
          ([Ev.bConstruct b.name] ++
            (if b.hasOnCreate then [Ev.bCreate b.name args] else [])) := by
        intro hm
        rcases List.mem_append.mp hm with hm | hm
        · simp at hm
        · exact not_mem_iteSingleton _ (by simp) hm
      rw [createBehaviorV1Trace] at hi hj
      exact before_of_notMem hx hy i j hi hj

/-- Witness for C6: the amended theorem evaluated on concrete inputs for
all three construction paths. -/
theorem C6_witness :
    ((firstRender vcNoRender false).1.count Ev.vCreate = 1) ∧
    (1 : Nat) < 2 ∧ (1 : Nat) < 2 := by
  have h := C6_create_hook_position
  refine ⟨?_, ?_, ?_⟩
  · have := (h.1 vcNoRender false).1
    simpa [vcNoRender] using this
  · exact (h.2.1 ⟨"G", true, none, none, none, none⟩ none).2 1 2 (by decide) (by decide)
  · exact (h.2.2 behInst1F [7]).2 1 2 (by decide) (by decide)

/-! ## Claim C7. -/

/-- C7: `createBehavior` forwards the factory-call arguments verbatim to
the create hook: the hook event carries exactly the given argument list,
occurs exactly once in the construction trace (hence before the instance
is returned to the caller), and no create-hook call with different
arguments occurs. -/
theorem C7_createBehavior_forwards_args (b : BehaviorInst1) (args : List Nat)
    (h : b.hasOnCreate = true) :
    Ev.bCreate b.name args ∈ createBehaviorV1Trace b args ∧
    (createBehaviorV1Trace b args).count (Ev.bCreate b.name args) = 1 ∧
    (∀ a : List Nat, Ev.bCreate b.name a ∈ createBehaviorV1Trace b args → a = args) := by
  refine ⟨?_, ?_, ?_⟩
  · simp [createBehaviorV1Trace, h]
  · simp [createBehaviorV1Trace, h, List.count_append, List.count_cons]
  · intro a ha
    simp [createBehaviorV1Trace, h] at ha
    exact ha

/-- Witness for C7: the forwarding theorem applied to a concrete behavior
class and argument. -/
theorem C7_witness :
    Ev.bCreate "F" [7] ∈ createBehaviorV1Trace behInst1F [7] :=
  (C7_createBehavior_forwards_args behInst1F [7] rfl).1

/-! ## The reactive-annotation classifier
(`makeViewObservable` in `src/unnamed/part_000`, `makeBehaviorObservable`
in `src/unnamed/part_001`).

A JS value is modelled by the distinctions the classifier makes: undefined
(an unassigned field), null, a non-object primitive, a function, or a
plain object carrying its own enumerable keys.  A prototype level is the
list of its own property descriptors (a getter or a data value, with the
enumerability bit used by `Object.keys`); the chain passed to the
classifier holds exactly the user levels — the source walk stops at (and
excludes) the base `View`/`Behavior` prototype.  The annotation map is the
ordered list of bindings the classifier inserts. -/

inductive JSValue where
  | vundef
  | vnull
  | vprim (n : Nat)
  | vfun (id : Nat)
  | vobj (keys : List String)
deriving DecidableEq

/-- `typeof value === 'function'`. -/
def JSValue.isFun : JSValue → Bool
  | .vfun _ => true
  | _ => false

/-- Source `isRefLike`: non-null, object, has a `current` key, and exactly
one own key.  (Data-member values are modelled as plain objects, for which
the `in` test coincides with own-key membership.) -/
def isRefLike : JSValue → Bool
  | .vobj keys => keys.contains "current" && keys.length == 1
  | _ => false

/-- The classifications the source assigns (mobx annotation values). -/
inductive Ann where
  | observable
  | observableRef
  | computed
  | action
  | actionBound
deriving DecidableEq

/-- A property descriptor on a prototype level: a getter, or a data value. -/
inductive Descr where
  | getter
  | dataVal (v : JSValue)
deriving DecidableEq

/-- One own-property entry of a prototype object. -/
structure PropDescr where
  key : String
  enumerable : Bool
  descr : Descr
deriving DecidableEq

/-- The ordered annotation map built by the classifier. -/
abbrev AnnMap := List (String × Ann)

/-- First binding for a key (JS object lookup on the annotations object). -/
def lookupA : AnnMap → String → Option Ann
  | [], _ => none
  | p :: rest, k => if p.1 = k then some p.2 else lookupA rest k

/-- Source `key in annotations`. -/
def hasKey : AnnMap → String → Bool
  | [], _ => false
  | p :: rest, k => (p.1 == k) || hasKey rest k

/-- Number of bindings for a key (to state "appears exactly once"). -/
def countKey : AnnMap → String → Nat
  | [], _ => 0
  | p :: rest, k => (if p.1 = k then 1 else 0) + countKey rest k

/-- Source `BASE_EXCLUDES` (part_000). -/
def BASE_EXCLUDES : List String :=
  ["props", "_propsBox", "forwardRef", "onCreate", "onLayoutMount", "onMount",
   "onUnmount", "render", "ref", "use", "constructor", "_behaviors",
   "_layoutMountBehaviors", "_mountBehaviors", "_unmountBehaviors"]

/-- Source `BEHAVIOR_EXCLUDES` (part_001). -/
def BEHAVIOR_EXCLUDES : List String :=
  ["onCreate", "onLayoutMount", "onMount", "onUnmount", "constructor"]

/-- `Object.keys(Object.getPrototypeOf(instance))`: the own enumerable
keys of the immediate prototype (empty when the instance sits directly on
the base prototype). -/
def protoEnumKeys : List (List PropDescr) → List String
  | [] => []
  | l :: _ => (l.filter (fun d => d.enumerable)).map (fun d => d.key)

/-- `(instance as any)[key]`: the instance's own value if present, else
the first matching descriptor up the chain (a data value; a getter's
invoked result is modelled as an opaque undefined — class-syntax getters
are non-enumerable, so such a key never reaches the own-keys pass),
else undefined. -/
def lookupVal (inst : List (String × JSValue)) (chain : List (List PropDescr))
    (k : String) : JSValue :=
  match inst.find? (fun p => p.1 == k) with
  | some p => p.2
  | none =>
    match chain.findSome? (fun level => level.find? (fun d => d.key == k)) with
    | some d =>
      match d.descr with
      | .dataVal v => v
      | .getter => JSValue.vundef
    | none => JSValue.vundef

/-- The body of the own-keys loop shared by both classifiers: skip
excluded keys, skip already-classified keys, skip functions, otherwise
classify with the own-member classification (`ownClass`). -/
def ownStep (excl : List String) (ownClass : JSValue → Ann)
    (lookupV : String → JSValue) (m : AnnMap) (k : String) : AnnMap :=
  if k ∈ excl then m
  else if hasKey m k then m
  else
    let v := lookupV k
    if v.isFun then m
    else m ++ [(k, ownClass v)]

/-- The body of the prototype-walk loop shared by both classifiers: skip
excluded keys, skip already-classified keys, a getter becomes `computed`,
a function-valued descriptor becomes the method classification. -/
def walkStep (excl : List String) (methodAnn : Ann) (m : AnnMap)
    (d : PropDescr) : AnnMap :=
  if d.key ∈ excl then m
  else if hasKey m d.key then m
  else
    match d.descr with
    | .getter => m ++ [(d.key, Ann.computed)]
    | .dataVal v => if v.isFun then m ++ [(d.key, methodAnn)] else m

/-- The own-keys pass: the deduplicated union of the instance's own keys
and the immediate prototype's enumerable keys, folded through `ownStep`
starting from the empty annotations object. -/
def ownPass (excl : List String) (ownClass : JSValue → Ann)
    (inst : List (String × JSValue)) (chain : List (List PropDescr)) : AnnMap :=
  ((inst.map Prod.fst ++ protoEnumKeys chain).dedup).foldl
    (ownStep excl ownClass (lookupVal inst chain)) []

/-- The full classifier: own-keys pass, then the upward prototype walk
over the user levels in order. -/
def buildAnnMap (excl : List String) (ownClass : JSValue → Ann) (methodAnn : Ann)
    (inst : List (String × JSValue)) (chain : List (List PropDescr)) : AnnMap :=
  chain.foldl (fun m level => level.foldl (walkStep excl methodAnn) m)
    (ownPass excl ownClass inst chain)

/-- Source `makeViewObservable`'s own-member classification: ref-like
values get `observable.ref`, everything else `observable`. -/
def viewOwnClass (v : JSValue) : Ann :=
  if isRefLike v then Ann.observableRef else Ann.observable

/-- Source `makeViewObservable` (part_000): `BASE_EXCLUDES`, the ref-like
test on own members, and `action.bound`/`action` per the autoBind flag. -/
def makeViewObservable (inst : List (String × JSValue))
    (chain : List (List PropDescr)) (autoBind : Bool) : AnnMap :=
  buildAnnMap BASE_EXCLUDES viewOwnClass
    (if autoBind then Ann.actionBound else Ann.action) inst chain

/-- Source `makeBehaviorObservable` (part_001): `BEHAVIOR_EXCLUDES`,
plain `observable` for every own member (no ref-like test), and always
`action.bound` for methods. -/
def makeBehaviorObservable (inst : List (String × JSValue))
    (chain : List (List PropDescr)) : AnnMap :=
  buildAnnMap BEHAVIOR_EXCLUDES (fun _ => Ann.observable) Ann.actionBound inst chain

/-- What a walk descriptor classifies as, if anything. -/
def walkClass (methodAnn : Ann) : Descr → Option Ann
  | .getter => some Ann.computed
  | .dataVal v => if v.isFun then some methodAnn else none

/-- Rendering of the spec's words "first classification found while
walking upward wins": the first classifiable descriptor for the key in
the chain, levels in upward order. -/
def firstWalkClass (methodAnn : Ann) (chain : List (List PropDescr))
    (k : String) : Option Ann :=
  chain.flatten.findSome?
    (fun d => if d.key = k then walkClass methodAnn d.descr else none)

/-! ## Annotation-map infrastructure lemmas. -/

/-- A key outside an append's left part looks up in the right part. -/
theorem lookupA_append_of_not_hasKey {m : AnnMap} {k : String}
    (h : hasKey m k = false) (l : AnnMap) : lookupA (m ++ l) k = lookupA l k := by
  induction m with
  | nil => rfl
  | cons p rest ih =>
    simp only [hasKey, Bool.or_eq_false_iff, beq_eq_false_iff_ne] at h
    simp only [List.cons_append, lookupA, if_neg h.1]
    exact ih h.2

/-- A key bound in an append's left part looks up there. -/
theorem lookupA_append_of_hasKey {m : AnnMap} {k : String}
    (h : hasKey m k = true) (l : AnnMap) : lookupA (m ++ l) k = lookupA m k := by
  induction m with
  | nil => simp [hasKey] at h
  | cons p rest ih =>
    by_cases hp : p.1 = k
    · simp [lookupA, hp]
    · simp only [hasKey, Bool.or_eq_true, beq_iff_eq] at h
      rcases h with h | h
      · exact absurd h hp
      · simp only [List.cons_append, lookupA, if_neg hp]
        exact ih h

/-- Appending a binding for another key does not change a lookup. -/
theorem lookupA_append_ne {k2 k : String} (hne : k2 ≠ k) (m : AnnMap) (a : Ann) :
    lookupA (m ++ [(k2, a)]) k = lookupA m k := by
  induction m with
  | nil => simp [lookupA, hne]
  | cons p rest ih =>
    by_cases hp : p.1 = k
    · simp [lookupA, hp]
    · simp only [List.cons_append, lookupA, if_neg hp]
      exact ih

/-- `hasKey` distributes over append. -/
theorem hasKey_append (m l : AnnMap) (k : String) :
    hasKey (m ++ l) k = (hasKey m k || hasKey l k) := by
  induction m with
  | nil => simp [hasKey]
  | cons p rest ih =>
    simp only [List.cons_append, hasKey, List.append_eq, ih, Bool.or_assoc]

/-- `countKey` over an appended singleton. -/
theorem countKey_append_single (m : AnnMap) (k2 k : String) (a : Ann) :
    countKey (m ++ [(k2, a)]) k = countKey m k + (if k2 = k then 1 else 0) := by
  induction m with
  | nil => simp [countKey]
  | cons p rest ih =>
    simp only [List.cons_append, countKey, List.append_eq, ih]
    omega

/-- An absent key looks up to nothing. -/
theorem lookupA_eq_none_of_not_hasKey {m : AnnMap} {k : String}
    (h : hasKey m k = false) : lookupA m k = none := by
  induction m with
  | nil => rfl
  | cons p rest ih =>
    simp only [hasKey, Bool.or_eq_false_iff, beq_eq_false_iff_ne] at h
    simp only [lookupA, if_neg h.1]
    exact ih h.2

/-- An absent key has no bindings. -/
theorem countKey_eq_zero_of_not_hasKey {m : AnnMap} {k : String}
    (h : hasKey m k = false) : countKey m k = 0 := by
  induction m with
  | nil => rfl
  | cons p rest ih =>
    simp only [hasKey, Bool.or_eq_false_iff, beq_eq_false_iff_ne] at h
    simp only [countKey, if_neg h.1]
    simpa using ih h.2

/-- `ownStep` either leaves the map alone or appends the classification of
the processed key, the latter only when that key was unbound. -/
theorem ownStep_cases (excl : List String) (ownClass : JSValue → Ann)
    (lookupV : String → JSValue) (m : AnnMap) (k : String) :
    ownStep excl ownClass lookupV m k = m ∨
      (hasKey m k = false ∧
        ownStep excl ownClass lookupV m k = m ++ [(k, ownClass (lookupV k))]) := by
  unfold ownStep
  by_cases h1 : k ∈ excl
  · exact Or.inl (by simp [h1])
  · by_cases h2 : hasKey m k = true
    · exact Or.inl (by simp [h1, h2])
    · by_cases h3 : (lookupV k).isFun = true
      · exact Or.inl (by simp [h1, h2, h3])
      · refine Or.inr ⟨by simpa using h2, ?_⟩
        simp [h1, h2, h3]

/-- `walkStep` either leaves the map alone or appends a `computed` or
method classification for the descriptor's key, the latter only when that
key was unbound. -/
theorem walkStep_cases (excl : List String) (methodAnn : Ann) (m : AnnMap)
    (d : PropDescr) :
    walkStep excl methodAnn m d = m ∨
      (hasKey m d.key = false ∧
        (walkStep excl methodAnn m d = m ++ [(d.key, Ann.computed)] ∨
         walkStep excl methodAnn m d = m ++ [(d.key, methodAnn)])) := by
  unfold walkStep
  by_cases h1 : d.key ∈ excl
  · exact Or.inl (by simp [h1])
  · by_cases h2 : hasKey m d.key = true
    · exact Or.inl (by simp [h1, h2])
    · rcases hd : d.descr with _ | v
      · exact Or.inr ⟨by simpa using h2, Or.inl (by simp [h1, h2, hd])⟩
      · by_cases h3 : v.isFun = true
        · exact Or.inr ⟨by simpa using h2, Or.inr (by simp [h1, h2, hd, h3])⟩
        · exact Or.inl (by simp [h1, h2, hd, h3])

/-- A bound key's lookup, presence and count survive one `ownStep`. -/
theorem ownStep_preserves {m : AnnMap} {k : String} (h : hasKey m k = true)
    (excl : List String) (ownClass : JSValue → Ann) (lookupV : String → JSValue)
    (k2 : String) :
    lookupA (ownStep excl ownClass lookupV m k2) k = lookupA m k ∧
    hasKey (ownStep excl ownClass lookupV m k2) k = true ∧
    countKey (ownStep excl ownClass lookupV m k2) k = countKey m k := by
  rcases ownStep_cases excl ownClass lookupV m k2 with he | ⟨hk2, he⟩
  · rw [he]; exact ⟨rfl, h, rfl⟩
  · have hne : k2 ≠ k := by
      intro hh
      rw [hh, h] at hk2
      cases hk2
    rw [he]
    refine ⟨lookupA_append_ne hne m _, ?_, ?_⟩
    · rw [hasKey_append, h]; rfl
    · rw [countKey_append_single, if_neg hne]
      omega

/-- A bound key's lookup, presence and count survive one `walkStep`. -/
theorem walkStep_preserves {m : AnnMap} {k : String} (h : hasKey m k = true)
    (excl : List String) (methodAnn : Ann) (d : PropDescr) :
    lookupA (walkStep excl methodAnn m d) k = lookupA m k ∧
    hasKey (walkStep excl methodAnn m d) k = true ∧
    countKey (walkStep excl methodAnn m d) k = countKey m k := by
  rcases walkStep_cases excl methodAnn m d with he | ⟨hk2, he⟩
  · rw [he]; exact ⟨rfl, h, rfl⟩
  · have hne : d.key ≠ k := by
      intro hh
      rw [hh, h] at hk2
      cases hk2
    rcases he with he | he <;> rw [he] <;>
      refine ⟨lookupA_append_ne hne m _, ?_, ?_⟩ <;>
      first
        | (rw [hasKey_append, h]; rfl)
        | (rw [countKey_append_single, if_neg hne]; omega)

/-- A bound key's lookup, presence and count survive the own-keys fold. -/
theorem ownFold_preserves (excl : List String) (ownClass : JSValue → Ann)
    (lookupV : String → JSValue) :
    ∀ (keys : List String) (m : AnnMap) (k : String), hasKey m k = true →
      lookupA (keys.foldl (ownStep excl ownClass lookupV) m) k = lookupA m k ∧
      hasKey (keys.foldl (ownStep excl ownClass lookupV) m) k = true ∧
      countKey (keys.foldl (ownStep excl ownClass lookupV) m) k = countKey m k := by
  intro keys
  induction keys with
  | nil => intro m k h; exact ⟨rfl, h, rfl⟩
  | cons k2 rest ih =>
    intro m k h
    obtain ⟨h1, h2, h3⟩ := ownStep_preserves h excl ownClass lookupV k2
    obtain ⟨h4, h5, h6⟩ := ih (ownStep excl ownClass lookupV m k2) k h2
    exact ⟨h4.trans h1, h5, h6.trans h3⟩

/-- A bound key's lookup, presence and count survive the walk fold. -/
theorem walkFold_preserves (excl : List String) (methodAnn : Ann) :
    ∀ (ds : List PropDescr) (m : AnnMap) (k : String), hasKey m k = true →
      lookupA (ds.foldl (walkStep excl methodAnn) m) k = lookupA m k ∧
      hasKey (ds.foldl (walkStep excl methodAnn) m) k = true ∧
      countKey (ds.foldl (walkStep excl methodAnn) m) k = countKey m k := by
  intro ds
  induction ds with
  | nil => intro m k h; exact ⟨rfl, h, rfl⟩
  | cons d rest ih =>
    intro m k h
    obtain ⟨h1, h2, h3⟩ := walkStep_preserves h excl methodAnn d
    obtain ⟨h4, h5, h6⟩ := ih (walkStep excl methodAnn m d) k h2
    exact ⟨h4.trans h1, h5, h6.trans h3⟩

/-- The two-level walk fold equals the fold over the flattened chain. -/
theorem chainFold_eq (excl : List String) (methodAnn : Ann) :
    ∀ (chain : List (List PropDescr)) (m : AnnMap),
      chain.foldl (fun m2 level => level.foldl (walkStep excl methodAnn) m2) m =
        chain.flatten.foldl (walkStep excl methodAnn) m := by
  intro chain
  induction chain with
  | nil => intro m; rfl
  | cons level rest ih =>
    intro m
    simp only [List.foldl_cons, List.flatten_cons, List.foldl_append]
    exact ih _

/-- A successful lookup implies presence. -/
theorem hasKey_of_lookupA {m : AnnMap} {k : String} {a : Ann}
    (h : lookupA m k = some a) : hasKey m k = true := by
  induction m with
  | nil => simp [lookupA] at h
  | cons p rest ih =>
    by_cases hp : p.1 = k
    · simp [hasKey, hp]
    · simp only [lookupA, if_neg hp] at h
      simp [hasKey, ih h]

/-- A failed lookup implies absence. -/
theorem hasKey_eq_false_of_lookupA_none {m : AnnMap} {k : String}
    (h : lookupA m k = none) : hasKey m k = false := by
  induction m with
  | nil => rfl
  | cons p rest ih =>
    by_cases hp : p.1 = k
    · simp [lookupA, hp] at h
    · simp only [lookupA, if_neg hp] at h
      simp [hasKey, hp, ih h]

/-- First-wins for the prototype walk: if a key is unbound when the walk
starts, its final classification is the first classifiable descriptor for
it in descriptor order. -/
theorem walkFold_first (excl : List String) (methodAnn : Ann) {k : String}
    (hk : k ∉ excl) :
    ∀ (ds : List PropDescr) (m : AnnMap), hasKey m k = false →
      lookupA (ds.foldl (walkStep excl methodAnn) m) k =
        ds.findSome? (fun d => if d.key = k then walkClass methodAnn d.descr else none) := by
  intro ds
  induction ds with
  | nil => intro m h; exact lookupA_eq_none_of_not_hasKey h
  | cons d rest ih =>
    intro m h
    simp only [List.foldl_cons, List.findSome?_cons]
    by_cases hdk : d.key = k
    · rcases hd : d.descr with _ | v
      · have hstep : walkStep excl methodAnn m d = m ++ [(d.key, Ann.computed)] := by
          simp [walkStep, hd, hdk, hk, h]
        have hbound : hasKey (m ++ [(d.key, Ann.computed)]) k = true := by
          rw [hasKey_append, h]
          simp [hasKey, hdk]
        rw [hstep, (walkFold_preserves excl methodAnn rest _ k hbound).1,
          lookupA_append_of_not_hasKey h]
        simp [lookupA, hdk, walkClass, hd]
      · by_cases hv : v.isFun = true
        · have hstep : walkStep excl methodAnn m d = m ++ [(d.key, methodAnn)] := by
            simp [walkStep, hd, hdk, hk, h, hv]
          have hbound : hasKey (m ++ [(d.key, methodAnn)]) k = true := by
            rw [hasKey_append, h]
            simp [hasKey, hdk]
          rw [hstep, (walkFold_preserves excl methodAnn rest _ k hbound).1,
            lookupA_append_of_not_hasKey h]
          simp [lookupA, hdk, walkClass, hd, hv]
        · have hstep : walkStep excl methodAnn m d = m := by
            simp [walkStep, hd, hdk, hk, h, hv]
          rw [hstep, ih m h]
          simp [hdk, walkClass, hd, hv]
    · have hnk : hasKey (walkStep excl methodAnn m d) k = false := by
        rcases walkStep_cases excl methodAnn m d with he | ⟨h2, he | he⟩ <;> rw [he]
        · exact h
        · rw [hasKey_append, h]
          simp [hasKey, hdk]
        · rw [hasKey_append, h]
          simp [hasKey, hdk]
      rw [ih _ hnk]
      simp [hdk]

/-- A key not among the processed own keys is untouched by the own fold. -/
theorem ownFold_skip (excl : List String) (ownClass : JSValue → Ann)
    (lookupV : String → JSValue) :
    ∀ (keys : List String) (m : AnnMap) (k : String), k ∉ keys →
      lookupA (keys.foldl (ownStep excl ownClass lookupV) m) k = lookupA m k ∧
      hasKey (keys.foldl (ownStep excl ownClass lookupV) m) k = hasKey m k ∧
      countKey (keys.foldl (ownStep excl ownClass lookupV) m) k = countKey m k := by
  intro keys
  induction keys with
  | nil => intro m k _; exact ⟨rfl, rfl, rfl⟩
  | cons k2 rest ih =>
    intro m k hk
    have hne : k2 ≠ k := fun hh => hk (hh ▸ List.mem_cons_self k2 rest)
    have hrest : k ∉ rest := fun hh => hk (List.mem_cons_of_mem k2 hh)
    have hstep : lookupA (ownStep excl ownClass lookupV m k2) k = lookupA m k ∧
        hasKey (ownStep excl ownClass lookupV m k2) k = hasKey m k ∧
        countKey (ownStep excl ownClass lookupV m k2) k = countKey m k := by
      rcases ownStep_cases excl ownClass lookupV m k2 with he | ⟨_, he⟩ <;> rw [he]
      · exact ⟨rfl, rfl, rfl⟩
      · refine ⟨lookupA_append_ne hne m _, ?_, ?_⟩
        · rw [hasKey_append]
          simp [hasKey, hne]
        · rw [countKey_append_single, if_neg hne]
          omega
    obtain ⟨h1, h2, h3⟩ := hstep
    obtain ⟨h4, h5, h6⟩ := ih (ownStep excl ownClass lookupV m k2) k hrest
    exact ⟨h4.trans h1, h5.trans h2, h6.trans h3⟩

/-- The own fold classifies every processed non-excluded non-function key
exactly once with the own-member classification. -/
theorem ownFold_binds (excl : List String) (ownClass : JSValue → Ann)
    (lookupV : String → JSValue) :
    ∀ (keys : List String) (m : AnnMap) (k : String),
      k ∈ keys → k ∉ excl → (lookupV k).isFun = false → hasKey m k = false →
      lookupA (keys.foldl (ownStep excl ownClass lookupV) m) k =
        some (ownClass (lookupV k)) ∧
      countKey (keys.foldl (ownStep excl ownClass lookupV) m) k =
        countKey m k + 1 := by
  intro keys
  induction keys with
  | nil => intro m k hmem; simp at hmem
  | cons k2 rest ih =>
    intro m k hmem hexcl hfun hm
    by_cases hk2 : k2 = k
    · subst hk2
      have hstep : ownStep excl ownClass lookupV m k2 = m ++ [(k2, ownClass (lookupV k2))] := by
        simp [ownStep, hexcl, hm, hfun]
      have hbound : hasKey (m ++ [(k2, ownClass (lookupV k2))]) k2 = true := by
        rw [hasKey_append, hm]
        simp [hasKey]
      obtain ⟨p1, _, p3⟩ :=
        ownFold_preserves excl ownClass lookupV rest
          (m ++ [(k2, ownClass (lookupV k2))]) k2 hbound
      simp only [List.foldl_cons, hstep]
      constructor
      · rw [p1, lookupA_append_of_not_hasKey hm]
        simp [lookupA]
      · rw [p3, countKey_append_single]
        simp
    · have hne : k2 ≠ k := hk2
      have hmem2 : k ∈ rest := by
        rcases List.mem_cons.mp hmem with hh | hh
        · exact absurd hh.symm hne
        · exact hh
      have hstep : lookupA (ownStep excl ownClass lookupV m k2) k = lookupA m k ∧
          hasKey (ownStep excl ownClass lookupV m k2) k = hasKey m k ∧
          countKey (ownStep excl ownClass lookupV m k2) k = countKey m k := by
        rcases ownStep_cases excl ownClass lookupV m k2 with he | ⟨_, he⟩ <;> rw [he]
        · exact ⟨rfl, rfl, rfl⟩
        · refine ⟨lookupA_append_ne hne m _, ?_, ?_⟩
          · rw [hasKey_append]
            simp [hasKey, hne]
          · rw [countKey_append_single, if_neg hne]
            omega
      obtain ⟨h1, h2, h3⟩ := hstep
      obtain ⟨h4, h5⟩ := ih (ownStep excl ownClass lookupV m k2) k hmem2 hexcl hfun
        (h2.trans hm)
      simp only [List.foldl_cons]
      exact ⟨h4, by rw [h5, h3]⟩

/-- The own-keys pass classifies every own (or declared-field) key outside
the exclusion set whose value is not callable, exactly once. -/
theorem ownPass_binds (excl : List String) (ownClass : JSValue → Ann)
    (inst : List (String × JSValue)) (chain : List (List PropDescr)) (k : String)
    (hmem : k ∈ inst.map Prod.fst ∨ k ∈ protoEnumKeys chain)
    (hexcl : k ∉ excl)
    (hfun : (lookupVal inst chain k).isFun = false) :
    lookupA (ownPass excl ownClass inst chain) k =
      some (ownClass (lookupVal inst chain k)) ∧
    countKey (ownPass excl ownClass inst chain) k = 1 := by
  have hk : k ∈ (inst.map Prod.fst ++ protoEnumKeys chain).dedup := by
    rw [List.mem_dedup]
    exact List.mem_append.mpr hmem
  have h := ownFold_binds excl ownClass (lookupVal inst chain)
    ((inst.map Prod.fst ++ protoEnumKeys chain).dedup) [] k hk hexcl hfun rfl
  exact ⟨h.1, by simpa [countKey] using h.2⟩

/-- The full classifier keeps the own-keys classification of such a key:
the prototype walk never reclassifies it. -/
theorem buildAnnMap_own (excl : List String) (ownClass : JSValue → Ann)
    (methodAnn : Ann) (inst : List (String × JSValue))
    (chain : List (List PropDescr)) (k : String)
    (hmem : k ∈ inst.map Prod.fst ∨ k ∈ protoEnumKeys chain)
    (hexcl : k ∉ excl)
    (hfun : (lookupVal inst chain k).isFun = false) :
    lookupA (buildAnnMap excl ownClass methodAnn inst chain) k =
      some (ownClass (lookupVal inst chain k)) ∧
    countKey (buildAnnMap excl ownClass methodAnn inst chain) k = 1 := by
  obtain ⟨h1, h2⟩ := ownPass_binds excl ownClass inst chain k hmem hexcl hfun
  have hbound : hasKey (ownPass excl ownClass inst chain) k = true :=
    hasKey_of_lookupA h1
  obtain ⟨p1, _, p3⟩ := walkFold_preserves excl methodAnn chain.flatten
    (ownPass excl ownClass inst chain) k hbound
  rw [buildAnnMap, chainFold_eq]
  exact ⟨p1.trans h1, p3.trans h2⟩

/-- If the own-keys pass left a key unclassified, the full classifier
assigns it the first classification found while walking the chain upward. -/
theorem buildAnnMap_walk (excl : List String) (ownClass : JSValue → Ann)
    (methodAnn : Ann) (inst : List (String × JSValue))
    (chain : List (List PropDescr)) (k : String)
    (hexcl : k ∉ excl)
    (hnone : lookupA (ownPass excl ownClass inst chain) k = none) :
    lookupA (buildAnnMap excl ownClass methodAnn inst chain) k =
      firstWalkClass methodAnn chain k := by
  have hfalse : hasKey (ownPass excl ownClass inst chain) k = false :=
    hasKey_eq_false_of_lookupA_none hnone
  rw [buildAnnMap, chainFold_eq]
  exact walkFold_first excl methodAnn hexcl chain.flatten _ hfalse

/-- Range of one `ownStep`: old bindings, or the own classification. -/
theorem ownStep_range {excl : List String} {ownClass : JSValue → Ann}
    {lookupV : String → JSValue} {m : AnnMap} {k2 : String} {p : String × Ann}
    (h : p ∈ ownStep excl ownClass lookupV m k2) :
    p ∈ m ∨ ∃ v, p.2 = ownClass v := by
  rcases ownStep_cases excl ownClass lookupV m k2 with he | ⟨_, he⟩ <;> rw [he] at h
  · exact Or.inl h
  · rcases List.mem_append.mp h with h | h
    · exact Or.inl h
    · simp at h
      exact Or.inr ⟨lookupV k2, by rw [h]⟩

/-- Range of one `walkStep`: old bindings, `computed`, or the method
classification. -/
theorem walkStep_range {excl : List String} {methodAnn : Ann} {m : AnnMap}
    {d : PropDescr} {p : String × Ann} (h : p ∈ walkStep excl methodAnn m d) :
    p ∈ m ∨ p.2 = Ann.computed ∨ p.2 = methodAnn := by
  rcases walkStep_cases excl methodAnn m d with he | ⟨_, he | he⟩ <;> rw [he] at h
  · exact Or.inl h
  · rcases List.mem_append.mp h with h | h
    · exact Or.inl h
    · simp at h
      exact Or.inr (Or.inl (by rw [h]))
  · rcases List.mem_append.mp h with h | h
    · exact Or.inl h
    · simp at h
      exact Or.inr (Or.inr (by rw [h]))

/-- Range of the own fold. -/
theorem ownFold_range (excl : List String) (ownClass : JSValue → Ann)
    (lookupV : String → JSValue) :
    ∀ (keys : List String) (m : AnnMap) (p : String × Ann),
      p ∈ keys.foldl (ownStep excl ownClass lookupV) m →
      p ∈ m ∨ ∃ v, p.2 = ownClass v := by
  intro keys
  induction keys with
  | nil => intro m p h; exact Or.inl h
  | cons k2 rest ih =>
    intro m p h
    rcases ih (ownStep excl ownClass lookupV m k2) p h with h2 | h2
    · exact ownStep_range h2
    · exact Or.inr h2

/-- Range of the walk fold. -/
theorem walkFold_range (excl : List String) (methodAnn : Ann) :
    ∀ (ds : List PropDescr) (m : AnnMap) (p : String × Ann),
      p ∈ ds.foldl (walkStep excl methodAnn) m →
      p ∈ m ∨ p.2 = Ann.computed ∨ p.2 = methodAnn := by
  intro ds
  induction ds with
  | nil => intro m p h; exact Or.inl h
  | cons d rest ih =>
    intro m p h
    rcases ih (walkStep excl methodAnn m d) p h with h2 | h2
    · exact walkStep_range h2
    · exact Or.inr h2

/-- Range of the full classifier. -/
theorem buildAnnMap_range (excl : List String) (ownClass : JSValue → Ann)
    (methodAnn : Ann) (inst : List (String × JSValue))
    (chain : List (List PropDescr)) (p : String × Ann)
    (h : p ∈ buildAnnMap excl ownClass methodAnn inst chain) :
    (∃ v, p.2 = ownClass v) ∨ p.2 = Ann.computed ∨ p.2 = methodAnn := by
  rw [buildAnnMap, chainFold_eq] at h
  rcases walkFold_range excl methodAnn chain.flatten _ p h with h2 | h2
  · rcases ownFold_range excl ownClass (lookupVal inst chain) _ [] p h2 with h3 | h3
    · simp at h3
    · exact Or.inl h3
  · exact Or.inr h2

/-! ## Claim C8. -/

/-- C8: first classification wins.  (1)/(3): a member classified at the
instance level (own keys or declared fields) is never reclassified by any
prototype level — the final map keeps the own-member classification for
both the View and the Behavior classifier.  (2)/(4): a member the
own-keys pass left unclassified receives the first classification found
while walking the user prototype levels upward (the chain by construction
stops before the base View/Behavior prototype), so a getter at a lower
level takes precedence over a same-named method higher in the chain. -/
theorem C8_first_classification_wins :
    (∀ (inst : List (String × JSValue)) (chain : List (List PropDescr))
        (autoBind : Bool) (k : String),
      k ∉ BASE_EXCLUDES →
      (k ∈ inst.map Prod.fst ∨ k ∈ protoEnumKeys chain) →
      (lookupVal inst chain k).isFun = false →
      lookupA (makeViewObservable inst chain autoBind) k =
        some (viewOwnClass (lookupVal inst chain k))) ∧
    (∀ (inst : List (String × JSValue)) (chain : List (List PropDescr))
        (autoBind : Bool) (k : String),
      k ∉ BASE_EXCLUDES →
      lookupA (ownPass BASE_EXCLUDES viewOwnClass inst chain) k = none →
      lookupA (makeViewObservable inst chain autoBind) k =
        firstWalkClass (if autoBind then Ann.actionBound else Ann.action) chain k) ∧
    (∀ (inst : List (String × JSValue)) (chain : List (List PropDescr)) (k : String),
      k ∉ BEHAVIOR_EXCLUDES →
      (k ∈ inst.map Prod.fst ∨ k ∈ protoEnumKeys chain) →
      (lookupVal inst chain k).isFun = false →
      lookupA (makeBehaviorObservable inst chain) k = some Ann.observable) ∧
    (∀ (inst : List (String × JSValue)) (chain : List (List PropDescr)) (k : String),
      k ∉ BEHAVIOR_EXCLUDES →
      lookupA (ownPass BEHAVIOR_EXCLUDES (fun _ => Ann.observable) inst chain) k = none →
      lookupA (makeBehaviorObservable inst chain) k =
        firstWalkClass Ann.actionBound chain k) := by
  refine ⟨?_, ?_, ?_, ?_⟩
  · intro inst chain autoBind k h1 h2 h3
    exact (buildAnnMap_own BASE_EXCLUDES viewOwnClass
      (if autoBind then Ann.actionBound else Ann.action) inst chain k h2 h1 h3).1
  · intro inst chain autoBind k h1 h2
    exact buildAnnMap_walk BASE_EXCLUDES viewOwnClass
      (if autoBind then Ann.actionBound else Ann.action) inst chain k h1 h2
  · intro inst chain k h1 h2 h3
    exact (buildAnnMap_own BEHAVIOR_EXCLUDES (fun _ => Ann.observable)
      Ann.actionBound inst chain k h2 h1 h3).1
  · intro inst chain k h1 h2
    exact buildAnnMap_walk BEHAVIOR_EXCLUDES (fun _ => Ann.observable)
      Ann.actionBound inst chain k h1 h2

/-- Concrete instance for the C8 witness: one own data field. -/
def instC8 : List (String × JSValue) := [("count", JSValue.vprim 0)]

/-- Concrete two-level chain for the C8 witness: a getter `doubled` and a
method `increment` on the lower level; a same-named method `doubled` and a
same-named getter `count` on the higher level. -/
def chainC8 : List (List PropDescr) :=
  [[⟨"doubled", false, Descr.getter⟩,
    ⟨"increment", false, Descr.dataVal (JSValue.vfun 0)⟩],
   [⟨"doubled", false, Descr.dataVal (JSValue.vfun 1)⟩,
    ⟨"count", false, Descr.getter⟩]]

/-- Witness for C8: the instance field beats the higher-level getter, the
lower-level getter beats the higher-level same-named method. -/
theorem C8_witness :
    lookupA (makeViewObservable instC8 chainC8 true) "count" =
      some (viewOwnClass (lookupVal instC8 chainC8 "count")) ∧
    lookupA (makeViewObservable instC8 chainC8 true) "doubled" =
      firstWalkClass Ann.actionBound chainC8 "doubled" ∧
    lookupA (makeViewObservable instC8 chainC8 true) "count" = some Ann.observable ∧
    lookupA (makeViewObservable instC8 chainC8 true) "doubled" = some Ann.computed := by
  have h := C8_first_classification_wins
  refine ⟨?_, ?_, by decide, by decide⟩
  · exact h.1 instC8 chainC8 true "count" (by decide) (Or.inl (by decide)) (by decide)
  · have := h.2.1 instC8 chainC8 true "doubled" (by decide) (by decide)
    simpa using this

/-! ## Claim C9. -/

/-- C9: every own non-callable data member of a View instance outside
`BASE_EXCLUDES` appears exactly once in the annotation map; a value of the
single-`current`-key reference shape is classified `observable.ref`, any
other non-callable value `observable`. -/
theorem C9_view_own_member_classified (inst : List (String × JSValue))
    (chain : List (List PropDescr)) (autoBind : Bool) (k : String)
    (h1 : k ∈ inst.map Prod.fst) (h2 : k ∉ BASE_EXCLUDES)
    (h3 : (lookupVal inst chain k).isFun = false) :
    countKey (makeViewObservable inst chain autoBind) k = 1 ∧
    lookupA (makeViewObservable inst chain autoBind) k =
      some (if isRefLike (lookupVal inst chain k) then Ann.observableRef
        else Ann.observable) := by
  obtain ⟨ha, hb⟩ := buildAnnMap_own BASE_EXCLUDES viewOwnClass
    (if autoBind then Ann.actionBound else Ann.action) inst chain k (Or.inl h1) h2 h3
  exact ⟨hb, ha⟩

/-- Concrete instance for the C9 witness: a plain field and a ref-shaped
field. -/
def instC9 : List (String × JSValue) :=
  [("count", JSValue.vprim 0), ("box", JSValue.vobj ["current"])]

/-- Witness for C9 at a concrete instance. -/
theorem C9_witness :
    countKey (makeViewObservable instC9 [] true) "box" = 1 ∧
    lookupA (makeViewObservable instC9 [] true) "box" = some Ann.observableRef ∧
    countKey (makeViewObservable instC9 [] true) "count" = 1 ∧
    lookupA (makeViewObservable instC9 [] true) "count" = some Ann.observable := by
  have hb := C9_view_own_member_classified instC9 [] true "box"
    (by decide) (by decide) (by decide)
  have hc := C9_view_own_member_classified instC9 [] true "count"
    (by decide) (by decide) (by decide)
  exact ⟨hb.1, hb.2.trans (by decide), hc.1, hc.2.trans (by decide)⟩

/-! ## Claim C10. -/

/-- C10: the Behavior classifier never produces `observable.ref` — every
binding it emits is `observable`, `computed` or `action.bound` — and every
own non-callable member outside `BEHAVIOR_EXCLUDES` is classified plain
`observable`, even when its value has the reference shape. -/
theorem C10_behavior_classifier_never_ref (inst : List (String × JSValue))
    (chain : List (List PropDescr)) :
    (∀ p ∈ makeBehaviorObservable inst chain, p.2 ≠ Ann.observableRef) ∧
    (∀ k, k ∈ inst.map Prod.fst → k ∉ BEHAVIOR_EXCLUDES →
      (lookupVal inst chain k).isFun = false →
      lookupA (makeBehaviorObservable inst chain) k = some Ann.observable) := by
  constructor
  · intro p hp
    rcases buildAnnMap_range BEHAVIOR_EXCLUDES (fun _ => Ann.observable)
      Ann.actionBound inst chain p hp with ⟨v, hv⟩ | hv | hv <;>
      rw [hv] <;> decide
  · intro k h1 h2 h3
    exact (buildAnnMap_own BEHAVIOR_EXCLUDES (fun _ => Ann.observable)
      Ann.actionBound inst chain k (Or.inl h1) h2 h3).1

/-- Concrete instance for the C10 witness: a single ref-shaped member. -/
def instC10 : List (String × JSValue) := [("box", JSValue.vobj ["current"])]

/-- Witness for C10: the ref-shaped member is classified plain
`observable` by the Behavior classifier, although the value satisfies the
reference shape the View classifier special-cases. -/
theorem C10_witness :
    lookupA (makeBehaviorObservable instC10 []) "box" = some Ann.observable ∧
    isRefLike (JSValue.vobj ["current"]) = true := by
  have h := C10_behavior_classifier_never_ref instC10 []
  exact ⟨h.2 "box" (by decide) (by decide) (by decide), by decide⟩
